import Mathlib

/-!
Shallow embedding of the `InternationalPhoneInput` React Native component
(`src/components/InternationalPhoneInput.tsx` of `expo-intl-phone-number`).

The component is a thin reactive-state wrapper around the external
`libphonenumber-js` parsing library.  We embed the component's state machine
faithfully: the mutable widget state becomes an explicit `WidgetState` record,
each event handler becomes a pure function from state (plus the event payload)
to the new state together with the `onChange` invocations it performs, and the
external library is abstracted as a record of functions (`PhoneLib`) over
which the theorems quantify.  A library call that can throw is modelled with
an explicit `ParseResult.thrown` constructor; the emission that the code
schedules with `setTimeout(..., 0)` is modelled by returning the pending
`Emission` separately from the synchronously updated state.
-/

namespace PhoneInput

/-- Record of the static country directory (`Country` of `data/countryList`):
ISO2 code, calling code and display name.  The flag asset handle plays no role
in the state machine and is omitted. -/
structure Country where
  iso2 : String
  callingCode : String
  name : String
deriving DecidableEq, Repr

/-- Observations of a parsed phone-number object of `libphonenumber-js`: the
validity verdict `isValid()`, the inferred `country`, and the `E.164` and
`NATIONAL` renderings produced by `format`. -/
structure PhoneNumber where
  isValid : Bool
  country : Option String
  e164 : String
  national : String
deriving DecidableEq, Repr

/-- Outcome of one call to the library's `parsePhoneNumber`: the call may
throw (`thrown`), return no number (`result none`, the `!parsed` check in the
component), or return a parsed number. -/
inductive ParseResult where
  | thrown : ParseResult
  | result : Option PhoneNumber → ParseResult
deriving DecidableEq, Repr

/-- Abstract interface of the `libphonenumber-js` operations the component
calls.  `parseWithCountry text iso2` is `parsePhoneNumber(text, iso2)`,
`parseGeneric text` is `parsePhoneNumber(text)`, `asYouTypeInput iso2 text` is
the string returned by `new AsYouType(iso2).input(text)`, and
`asYouTypeGetNumber iso2 text` is the number returned by `getNumber()` after
feeding `text` to `new AsYouType(iso2)`.  Theorems quantify over this record,
so they hold for every behaviour of the external library. -/
structure PhoneLib where
  parseWithCountry : String → String → ParseResult
  parseGeneric : String → ParseResult
  asYouTypeInput : String → String → String
  asYouTypeGetNumber : String → String → Option PhoneNumber

/-- Arguments of one `onChange(value, iso2)` callback invocation. -/
structure Emission where
  value : String
  iso2 : String
deriving DecidableEq, Repr

/-- The component's mutable state: `isOpen`, `internalNational` (the national
display text), `selectedCountry`, `searchQuery`, and the
`isInternalChange` reentrancy guard ref (field `guard`). -/
structure WidgetState where
  isOpen : Bool
  nationalText : String
  selectedCountry : Country
  searchQuery : String
  guard : Bool
deriving DecidableEq, Repr

/-- Character class `\s` of JavaScript regular expressions (the component's
input filter regex uses `\s`, which matches every whitespace character, not
only the space). -/
def jsWhitespace (c : Char) : Bool :=
  c = ' ' || c = '\t' || c = '\n' || c = '\r' || c = '\x0b' || c = '\x0c' ||
  c = '\u00A0' || c = '\u1680' || (0x2000 ≤ c.toNat && c.toNat ≤ 0x200A) ||
  c = '\u2028' || c = '\u2029' || c = '\u202F' || c = '\u205F' ||
  c = '\u3000' || c = '\uFEFF'

/-- Membership in the character class `[0-9\s\-()]` of the guard regex in
`handleTextChange`. -/
def allowedChar (c : Char) : Bool :=
  c.isDigit || jsWhitespace c || c = '-' || c = '(' || c = ')'

/-- The test `/^[0-9\s\-()]*$/.test(text)`: every character of `text` belongs
to the class `[0-9\s\-()]`. -/
def inputCharCheck (text : String) : Bool :=
  text.data.all allowedChar

/-- `text.replace(/[^0-9+]/g, '')`: keep only digits and `+`. -/
def cleanedInput (text : String) : String :=
  String.mk (text.data.filter fun c => c.isDigit || c = '+')

/-- `s.replace(/[^0-9]/g, '')`: keep only digits. -/
def onlyDigits (s : String) : String :=
  String.mk (s.data.filter Char.isDigit)

/-- `Array.prototype.indexOf` over a list of strings: index of the first
occurrence, `-1` when absent. -/
def jsIndexOf (l : List String) (a : String) : Int :=
  match l with
  | [] => -1
  | x :: xs =>
    if x = a then 0
    else
      let r := jsIndexOf xs a
      if r = -1 then -1 else r + 1

/-- The comparator `(a, b) => preferredCountries.indexOf(a.iso2) -
preferredCountries.indexOf(b.iso2)` passed to `Array.prototype.sort`, as the
boolean "ordered" relation (comparator result at most `0`).  `sort` is
required stable since ES2019 and is modelled by `List.mergeSort`. -/
def prefLe (preferred : List String) (a b : Country) : Bool :=
  decide (jsIndexOf preferred a.iso2 ≤ jsIndexOf preferred b.iso2)

/-- First block of the `finalCountryList` memo:
`if (allowedCountries && allowedCountries.length > 0) list = list.filter(c =>
allowedCountries.includes(c.iso2))`. -/
def applyAllowed (allowedCountries : Option (List String)) (list : List Country) :
    List Country :=
  match allowedCountries with
  | some allowed =>
    if allowed.isEmpty then list else list.filter fun c => allowed.contains c.iso2
  | none => list

/-- Second block of the `finalCountryList` memo:
`if (excludedCountries && excludedCountries.length > 0) list = list.filter(c =>
!excludedCountries.includes(c.iso2))`. -/
def applyExcluded (excludedCountries : Option (List String)) (list : List Country) :
    List Country :=
  match excludedCountries with
  | some excluded =>
    if excluded.isEmpty then list else list.filter fun c => !excluded.contains c.iso2
  | none => list

/-- Third block of the `finalCountryList` memo: partition by membership in
`preferredCountries`, stable-sort the members by their index in the
preference list, and concatenate. -/
def applyPreferred (preferredCountries : Option (List String)) (list : List Country) :
    List Country :=
  match preferredCountries with
  | some preferred =>
    if preferred.isEmpty then list
    else
      (list.filter fun c => preferred.contains c.iso2).mergeSort (prefLe preferred) ++
        list.filter fun c => !preferred.contains c.iso2
  | none => list

/-- The `finalCountryList` memo: start from the full directory and apply the
three blocks in order.  The three optional props are modelled as `Option`
(`none` = prop omitted / `undefined`). -/
def finalCountryList (directory : List Country)
    (allowedCountries excludedCountries preferredCountries : Option (List String)) :
    List Country :=
  applyPreferred preferredCountries
    (applyExcluded excludedCountries (applyAllowed allowedCountries directory))

/-- Rendering of the claim's description of the preferred block: the members
of the preference list moved to the front, ordered by their position in the
preference list, followed by all remaining entries in directory order. -/
def specPreferredFront (preferred : List String) (l : List Country) : List Country :=
  (preferred.filterMap fun code => l.find? fun c => c.iso2 == code) ++
    l.filter fun c => !preferred.contains c.iso2

/-- Preferred block as the claim describes it, with "(if set)" read as "if
set and non-empty" (the reading the counterexample of C6 forces). -/
def specApplyPreferred (preferredCountries : Option (List String)) (list : List Country) :
    List Country :=
  match preferredCountries with
  | some preferred =>
    if preferred.isEmpty then list else specPreferredFront preferred list
  | none => list

/-- Rendering of the claim's full pipeline for `FilteredCountryList`: filter
to the allowed codes, remove the excluded codes, then move the preferred
members to the front ordered by their position in the preference list,
followed by the remaining entries in directory order. -/
def specFinalCountryList (directory : List Country)
    (allowedCountries excludedCountries preferredCountries : Option (List String)) :
    List Country :=
  specApplyPreferred preferredCountries
    (applyExcluded excludedCountries (applyAllowed allowedCountries directory))

/-- The `useState` initializer of `selectedCountry`:
`finalCountryList.find(c => c.iso2 === defaultCountry) || finalCountryList[0]
|| countryList[0]`, where `countryList` is the unfiltered directory.  `none`
models the JavaScript `undefined` that results when the directory itself is
empty. -/
def initialSelectedCountry (directory : List Country)
    (allowedCountries excludedCountries preferredCountries : Option (List String))
    (defaultCountry : String) : Option Country :=
  let fcl := finalCountryList directory allowedCountries excludedCountries preferredCountries
  ((fcl.find? fun c => c.iso2 == defaultCountry).orElse fun _ => fcl.head?).orElse
    fun _ => directory.head?

/-- `emitChange(text, country)`: sets the reentrancy guard
(`isInternalChange.current = true`, the returned boolean), cleans the input to
digits and `+`, feeds it to the incremental formatter, and produces the single
`onChange` invocation: the E.164 form when a complete valid number is
reported, otherwise `'+' + callingCode + digits`. -/
def emitChange (lib : PhoneLib) (text : String) (country : Country) : Bool × Emission :=
  let cleanInput := cleanedInput text
  let number := lib.asYouTypeGetNumber country.iso2 cleanInput
  let e :=
    match number with
    | some n =>
      if n.isValid then Emission.mk n.e164 country.iso2
      else Emission.mk ("+" ++ country.callingCode ++ onlyDigits cleanInput) country.iso2
    | none => Emission.mk ("+" ++ country.callingCode ++ onlyDigits cleanInput) country.iso2
  (true, e)

/-- `handleTextChange(text)`: reject any text failing the strict character
check (no state change, no emission); otherwise store the incremental
formatter's output as the new national text and emit via `emitChange`. -/
def handleTextChange (lib : PhoneLib) (st : WidgetState) (text : String) :
    WidgetState × Option Emission :=
  if !inputCharCheck text then (st, none)
  else
    let formatted := lib.asYouTypeInput st.selectedCountry.iso2 text
    let ge := emitChange lib text st.selectedCountry
    ({ st with nationalText := formatted, guard := ge.1 }, some ge.2)

/-- `handleSelectCountry(country)`: extract the digits of the current national
text, reformat them under the new country, and synchronously update the
selection, close the picker, clear the search query and store the new national
text.  The emission is scheduled with `setTimeout(..., 0)`; it is modelled as
the returned pending `Emission`.  Note that the deferred block calls
`onChange` directly and never writes `isInternalChange`. -/
def handleSelectCountry (lib : PhoneLib) (st : WidgetState) (country : Country) :
    WidgetState × Emission :=
  let rawDigits := onlyDigits st.nationalText
  let formatted := lib.asYouTypeInput country.iso2 rawDigits
  let st1 := { st with
    selectedCountry := country
    isOpen := false
    searchQuery := ""
    nationalText := formatted }
  let number := lib.asYouTypeGetNumber country.iso2 rawDigits
  let e :=
    match number with
    | some n =>
      if n.isValid then Emission.mk n.e164 country.iso2
      else Emission.mk ("+" ++ country.callingCode ++ rawDigits) country.iso2
    | none => Emission.mk ("+" ++ country.callingCode ++ rawDigits) country.iso2
  (st1, e)

/-- `closeDropdown`: `setIsOpen(false)` and nothing else. -/
def closeDropdown (st : WidgetState) : WidgetState :=
  { st with isOpen := false }

/-- The ref method `setCountry(iso2)`: look the code up in the current
`finalCountryList`; when found behave exactly like a tap on that entry
(`handleSelectCountry`), otherwise do nothing. -/
def setCountry (lib : PhoneLib) (fcl : List Country) (st : WidgetState) (iso2 : String) :
    WidgetState × Option Emission :=
  match fcl.find? fun c => c.iso2 == iso2 with
  | some country =>
    let se := handleSelectCountry lib st country
    (se.1, some se.2)
  | none => (st, none)

/-- The ref method `isValid()`: compose `'+' + callingCode + nationalText`,
parse it scoped to the selected country inside a try/catch, and return the
library's verdict (`false` on a throw or when no number is returned). -/
def isValid (lib : PhoneLib) (st : WidgetState) : Bool :=
  let fullNumber := "+" ++ st.selectedCountry.callingCode ++ st.nationalText
  match lib.parseWithCountry fullNumber st.selectedCountry.iso2 with
  | ParseResult.thrown => false
  | ParseResult.result none => false
  | ParseResult.result (some parsed) => parsed.isValid

/-- The value-sync `useEffect`: consume the reentrancy guard if set; clear the
national text on an empty value; otherwise parse scoped to the selected
country (a throw aborts to the outer catch, which shows the raw value); when
the scoped parse returns no number or an invalid one, attempt an unscoped
parse inside an inner try/catch; if a number with a country results, switch
the selection to the matching `finalCountryList` entry when it differs, and
derive the display text from the formatter's NATIONAL rendering (falling back
to the raw value); in every remaining case show the raw value verbatim. -/
def syncValue (lib : PhoneLib) (fcl : List Country) (st : WidgetState) (value : String) :
    WidgetState :=
  if st.guard then { st with guard := false }
  else if value = "" then { st with nationalText := "" }
  else
    match lib.parseWithCountry value st.selectedCountry.iso2 with
    | ParseResult.thrown => { st with nationalText := value }
    | ParseResult.result first =>
      let parsed : Option PhoneNumber :=
        match first with
        | some p =>
          if p.isValid then some p
          else
            match lib.parseGeneric value with
            | ParseResult.thrown => some p
            | ParseResult.result second => second
        | none =>
          match lib.parseGeneric value with
          | ParseResult.thrown => none
          | ParseResult.result second => second
      match parsed with
      | some p =>
        match p.country with
        | some ctry =>
          let st1 :=
            if ctry ≠ st.selectedCountry.iso2 then
              match fcl.find? fun c => c.iso2 == ctry with
              | some newCountry => { st with selectedCountry := newCountry }
              | none => st
            else st
          let formatted :=
            match lib.asYouTypeGetNumber ctry value with
            | some n => if n.national = "" then value else n.national
            | none => value
          { st1 with nationalText := formatted }
        | none => { st with nationalText := value }
      | none => { st with nationalText := value }

/-- United States directory entry. -/
def usCountry : Country := ⟨"US", "1", "United States"⟩

/-- Canada directory entry. -/
def caCountry : Country := ⟨"CA", "1", "Canada"⟩

/-- Germany directory entry. -/
def deCountry : Country := ⟨"DE", "49", "Germany"⟩

/-- Turkey directory entry. -/
def trCountry : Country := ⟨"TR", "90", "Turkey"⟩

/-- A small concrete directory used by witnesses and counterexamples. -/
def sampleDirectory : List Country := [usCountry, caCountry, deCountry, trCountry]

/-- Degenerate library behaviour: every parse returns no number, the
incremental formatter echoes its input.  Used to instantiate theorems at
concrete inputs. -/
def trivLib : PhoneLib where
  parseWithCountry := fun _ _ => ParseResult.result none
  parseGeneric := fun _ => ParseResult.result none
  asYouTypeInput := fun _ text => text
  asYouTypeGetNumber := fun _ _ => none

/-- The parsed object `libphonenumber-js` documents for the number
`+1 202 555 0123`. -/
def usNumber : PhoneNumber := ⟨true, some "US", "+12025550123", "(202) 555-0123"⟩

/-- Library behaviour on the documented United States examples: parsing
`+12025550123` succeeds, everything else throws (as the real library does on
insufficient digits such as `+1123`). -/
def usLib : PhoneLib where
  parseWithCountry := fun text _ =>
    if text = "+12025550123" then ParseResult.result (some usNumber) else ParseResult.thrown
  parseGeneric := fun _ => ParseResult.thrown
  asYouTypeInput := fun _ text => text
  asYouTypeGetNumber := fun _ text =>
    if text = "2025550123" then some usNumber else none

/-- A parsed object whose inferred country is Germany. -/
def deNumber : PhoneNumber := ⟨true, some "DE", "+4915123456789", "01512 3456789"⟩

/-- Library behaviour in which every country-scoped parse throws while the
unscoped parse succeeds and infers Germany. -/
def throwingScopedLib : PhoneLib where
  parseWithCountry := fun _ _ => ParseResult.thrown
  parseGeneric := fun _ => ParseResult.result (some deNumber)
  asYouTypeInput := fun _ text => text
  asYouTypeGetNumber := fun _ _ => some deNumber

/-- A quiescent base state: picker closed, empty national text, United States
selected, empty search query, guard unset. -/
def st0 : WidgetState := ⟨false, "", usCountry, "", false⟩

/-- A state whose reentrancy guard is set. -/
def stGuardOn : WidgetState := ⟨false, "", usCountry, "", true⟩

/-- A state with a formatted national text already typed. -/
def stTyped : WidgetState := ⟨false, "(202) 555-0123", usCountry, "", false⟩

/-- A state holding a complete United States national number. -/
def stUsTyped : WidgetState := ⟨false, "2025550123", usCountry, "", false⟩

/-- A state holding too few digits for a United States number. -/
def stUsShort : WidgetState := ⟨false, "123", usCountry, "", false⟩

/-- A state with the picker open and a non-empty search query. -/
def stSearching : WidgetState := ⟨true, "", usCountry, "tur", false⟩

/-- Character class the sentence of C3 names literally: digits, the space,
the hyphen and the parentheses (narrower than the `\s` class the code uses). -/
def claimAllowedChar (c : Char) : Bool :=
  c.isDigit || c = ' ' || c = '-' || c = '(' || c = ')'

/-- Stripping to digits after stripping to digits and `+` equals stripping to
digits directly. -/
theorem onlyDigits_cleanedInput (t : String) : onlyDigits (cleanedInput t) = onlyDigits t := by
  unfold onlyDigits cleanedInput
  congr 1
  rw [show (String.mk (t.data.filter fun c => c.isDigit || c = '+')).data
        = t.data.filter fun c => c.isDigit || c = '+' from rfl]
  rw [List.filter_filter]
  apply List.filter_congr
  intro c _
  cases h : c.isDigit <;> simp [h]

/-- Stripping to digits is idempotent. -/
theorem onlyDigits_idem (s : String) : onlyDigits (onlyDigits s) = onlyDigits s := by
  unfold onlyDigits
  congr 1
  rw [show (String.mk (s.data.filter Char.isDigit)).data = s.data.filter Char.isDigit from rfl]
  rw [List.filter_filter]
  apply List.filter_congr
  intro c _
  cases h : c.isDigit <;> simp [h]

/-- C1 (amended): before every keystroke-triggered emission the reentrancy
guard is set, and a set guard is cleared by — and causes the skipping of —
exactly the next externally observed value update (the update changes nothing
but the guard, and leaves it unset so the following update is processed);
the deferred emission triggered by a country selection, however, leaves the
guard untouched. -/
theorem c1_guard_protocol (lib : PhoneLib) (fcl : List Country)
    (st stG : WidgetState) (text value : String) (c : Country)
    (hemit : (handleTextChange lib st text).2.isSome = true)
    (hguard : stG.guard = true) :
    (handleTextChange lib st text).1.guard = true ∧
    syncValue lib fcl stG value = { stG with guard := false } ∧
    (handleSelectCountry lib st c).1.guard = st.guard := by
  refine ⟨?_, ?_, rfl⟩
  · unfold handleTextChange at hemit ⊢
    by_cases h : inputCharCheck text
    · simp [h, emitChange]
    · simp [h] at hemit
  · unfold syncValue
    rw [hguard]
    simp

/-- Witness for C1: a concrete keystroke emission sets the guard, and a
concrete guarded state is restored to unguarded, untouched otherwise, by the
next value update. -/
theorem c1_guard_protocol_witness :
    ((handleTextChange trivLib st0 "1").2.isSome = true ∧ stGuardOn.guard = true) ∧
    ((handleTextChange trivLib st0 "1").1.guard = true ∧
      syncValue trivLib [] stGuardOn "5" = { stGuardOn with guard := false } ∧
      (handleSelectCountry trivLib st0 trCountry).1.guard = st0.guard) :=
  ⟨⟨by decide, rfl⟩,
    c1_guard_protocol trivLib [] st0 stGuardOn "1" "5" trCountry (by decide) rfl⟩

/-- Refutation of C1 as stated: the emission deferred by a country selection
is produced while the guard is still unset — `handleSelectCountry` never
writes `isInternalChange`, neither synchronously nor inside the timeout. -/
theorem c1_counterexample :
    (handleSelectCountry trivLib st0 trCountry).1.guard = false ∧
    (handleSelectCountry trivLib st0 trCountry).2 = Emission.mk "+90" "TR" := by
  constructor <;> rfl

/-- C2: every emission yields exactly one `onChange` invocation (`emitChange`
returns exactly one `Emission`, and being a total function it cannot throw)
whose second component is the selected country's ISO2 code and whose first
component is the E.164 form when the incremental formatter reports a complete
valid number, and `'+' + callingCode + digits-of-the-input` otherwise. -/
theorem c2_emission (lib : PhoneLib) (text : String) (country : Country) :
    (emitChange lib text country).2.iso2 = country.iso2 ∧
    (∀ n, lib.asYouTypeGetNumber country.iso2 (cleanedInput text) = some n →
      n.isValid = true → (emitChange lib text country).2.value = n.e164) ∧
    (∀ n, lib.asYouTypeGetNumber country.iso2 (cleanedInput text) = some n →
      n.isValid = false →
      (emitChange lib text country).2.value = "+" ++ country.callingCode ++ onlyDigits text) ∧
    (lib.asYouTypeGetNumber country.iso2 (cleanedInput text) = none →
      (emitChange lib text country).2.value = "+" ++ country.callingCode ++ onlyDigits text) := by
  refine ⟨?_, ?_, ?_, ?_⟩
  · cases hx : lib.asYouTypeGetNumber country.iso2 (cleanedInput text) with
    | none => simp [emitChange, hx]
    | some n => cases hv : n.isValid <;> simp [emitChange, hx, hv]
  · intro n hx hv
    simp [emitChange, hx, hv]
  · intro n hx hv
    simp [emitChange, hx, hv, onlyDigits_cleanedInput]
  · intro hx
    simp [emitChange, hx, onlyDigits_cleanedInput]

/-- Witness for C2: with a formatter that reports no number, the fallback
emission is produced for a concrete input. -/
theorem c2_emission_witness :
    trivLib.asYouTypeGetNumber usCountry.iso2 (cleanedInput "(202) 555-0123") = none ∧
    (emitChange trivLib "(202) 555-0123" usCountry).2.value =
      "+" ++ usCountry.callingCode ++ onlyDigits "(202) 555-0123" :=
  ⟨rfl, (c2_emission trivLib "(202) 555-0123" usCountry).2.2.2 rfl⟩

/-- Refutation of C3 as stated: the tab character lies outside the set the
claim names (digits, space, hyphen, parentheses), yet a text consisting of a
tab passes the code's filter (whose class is the full JavaScript `\s`), so
`onChange` is invoked once and `nationalText` changes. -/
theorem c3_counterexample :
    claimAllowedChar '\t' = false ∧
    (handleTextChange trivLib st0 "\t").2 = some (Emission.mk "+1" "US") ∧
    (handleTextChange trivLib st0 "\t").1.nationalText ≠ st0.nationalText := by
  refine ⟨by decide, by decide, by decide⟩

/-- C3 (amended): for every typed text containing any character outside
digits, JavaScript whitespace (`\s`), hyphen and parentheses — in particular
any letter — keystroke handling changes no state and invokes `onChange` zero
times. -/
theorem c3_rejection (lib : PhoneLib) (st : WidgetState) (text : String)
    (h : ∃ c ∈ text.data, allowedChar c = false) :
    handleTextChange lib st text = (st, none) := by
  obtain ⟨c, hc, hbad⟩ := h
  have hnot : ¬ (text.data.all allowedChar = true) := by
    intro hall
    have := List.all_eq_true.mp hall c hc
    rw [hbad] at this
    exact Bool.false_ne_true this
  have hfalse : inputCharCheck text = false := by
    unfold inputCharCheck
    exact Bool.eq_false_iff.mpr hnot
  unfold handleTextChange
  simp [hfalse]

/-- Witness for C3: the letter `a` is rejected with no state change and no
emission. -/
theorem c3_rejection_witness :
    (∃ c ∈ ("abc" : String).data, allowedChar c = false) ∧
    handleTextChange trivLib st0 "abc" = (st0, none) :=
  ⟨⟨'a', by decide, by decide⟩, c3_rejection trivLib st0 "abc" ⟨'a', by decide, by decide⟩⟩

/-- C5: country selection reformats the digit-only portion of the previous
national text under the new country (when the formatter preserves digits, no
digit is discarded), updates the selection, closes the picker and clears the
search query synchronously, and defers the canonical emission — modelled by
returning it as a pending action next to the synchronously updated state. -/
theorem c5_country_selection (lib : PhoneLib) (st : WidgetState) (country : Country)
    (hpres : ∀ iso text, onlyDigits (lib.asYouTypeInput iso text) = onlyDigits text) :
    (handleSelectCountry lib st country).1.nationalText =
      lib.asYouTypeInput country.iso2 (onlyDigits st.nationalText) ∧
    onlyDigits (handleSelectCountry lib st country).1.nationalText =
      onlyDigits st.nationalText ∧
    (handleSelectCountry lib st country).1.selectedCountry = country ∧
    (handleSelectCountry lib st country).1.isOpen = false ∧
    (handleSelectCountry lib st country).1.searchQuery = "" ∧
    (handleSelectCountry lib st country).2.iso2 = country.iso2 := by
  refine ⟨rfl, ?_, rfl, rfl, rfl, ?_⟩
  · show onlyDigits (lib.asYouTypeInput country.iso2 (onlyDigits st.nationalText)) = _
    rw [hpres, onlyDigits_idem]
  · unfold handleSelectCountry
    cases hx : lib.asYouTypeGetNumber country.iso2 (onlyDigits st.nationalText) with
    | none => simp [hx]
    | some n => cases hv : n.isValid <;> simp [hx, hv]

/-- Witness for C5: selecting Turkey over a typed United States number carries
the digits over (with the echoing formatter) and performs the synchronous
updates. -/
theorem c5_country_selection_witness :
    (∀ iso text, onlyDigits (trivLib.asYouTypeInput iso text) = onlyDigits text) ∧
    ((handleSelectCountry trivLib stTyped trCountry).1.nationalText =
        trivLib.asYouTypeInput trCountry.iso2 (onlyDigits stTyped.nationalText) ∧
      onlyDigits (handleSelectCountry trivLib stTyped trCountry).1.nationalText =
        onlyDigits stTyped.nationalText ∧
      (handleSelectCountry trivLib stTyped trCountry).1.selectedCountry = trCountry ∧
      (handleSelectCountry trivLib stTyped trCountry).1.isOpen = false ∧
      (handleSelectCountry trivLib stTyped trCountry).1.searchQuery = "" ∧
      (handleSelectCountry trivLib stTyped trCountry).2.iso2 = trCountry.iso2) :=
  ⟨fun _ _ => rfl, c5_country_selection trivLib stTyped trCountry (fun _ _ => rfl)⟩

/-- Refutation of C7 as stated: closing the picker does not reset the search
query — `closeDropdown` only clears `isOpen`. -/
theorem c7_counterexample :
    (closeDropdown stSearching).searchQuery = "tur" ∧ stSearching.searchQuery ≠ "" := by
  refine ⟨rfl, by decide⟩

/-- C7 (amended): the search query is reset to the empty string on every
country selection — in particular selecting while the query is non-empty
clears it and closes the picker; closing the picker, however, leaves the
query unchanged. -/
theorem c7_search_reset (lib : PhoneLib) (st : WidgetState) (country : Country) :
    (handleSelectCountry lib st country).1.searchQuery = "" ∧
    (handleSelectCountry lib st country).1.isOpen = false ∧
    (closeDropdown st).searchQuery = st.searchQuery ∧
    (closeDropdown st).isOpen = false :=
  ⟨rfl, rfl, rfl, rfl⟩

/-- C8: `isValid()` reparses `'+' + callingCode + nationalText` scoped to the
selected country and returns the library's verdict, and returns `false` — it
never propagates an error — when the parse throws or yields no number. -/
theorem c8_isValid (lib : PhoneLib) (st : WidgetState) :
    (lib.parseWithCountry ("+" ++ st.selectedCountry.callingCode ++ st.nationalText)
        st.selectedCountry.iso2 = ParseResult.thrown → isValid lib st = false) ∧
    (lib.parseWithCountry ("+" ++ st.selectedCountry.callingCode ++ st.nationalText)
        st.selectedCountry.iso2 = ParseResult.result none → isValid lib st = false) ∧
    (∀ p, lib.parseWithCountry ("+" ++ st.selectedCountry.callingCode ++ st.nationalText)
        st.selectedCountry.iso2 = ParseResult.result (some p) →
      isValid lib st = p.isValid) := by
  refine ⟨fun h => ?_, fun h => ?_, fun p h => ?_⟩ <;>
    · simp only [isValid]
      rw [h]

/-- Witness for C8: under the documented library behaviour, `"2025550123"`
under US is valid while `"123"` under US parses with a throw and yields
`false`. -/
theorem c8_isValid_witness :
    (usLib.parseWithCountry
        ("+" ++ stUsTyped.selectedCountry.callingCode ++ stUsTyped.nationalText)
        stUsTyped.selectedCountry.iso2 = ParseResult.result (some usNumber) ∧
      isValid usLib stUsTyped = usNumber.isValid ∧ usNumber.isValid = true) ∧
    (usLib.parseWithCountry
        ("+" ++ stUsShort.selectedCountry.callingCode ++ stUsShort.nationalText)
        stUsShort.selectedCountry.iso2 = ParseResult.thrown ∧
      isValid usLib stUsShort = false) :=
  ⟨⟨by decide, (c8_isValid usLib stUsTyped).2.2 usNumber (by decide), by decide⟩,
    ⟨by decide, (c8_isValid usLib stUsShort).1 (by decide)⟩⟩

/-- C9: `setCountry(iso2)` looks the code up in the current filtered list; a
miss is a complete no-op (unchanged state, no emission, no error), and a hit
behaves exactly like a user tap on that entry, including the deferred
emission. -/
theorem c9_setCountry (lib : PhoneLib) (fcl : List Country) (st : WidgetState)
    (iso2v : String) :
    ((fcl.find? fun c => c.iso2 == iso2v) = none →
      setCountry lib fcl st iso2v = (st, none)) ∧
    (∀ country, (fcl.find? fun c => c.iso2 == iso2v) = some country →
      setCountry lib fcl st iso2v =
        ((handleSelectCountry lib st country).1,
          some (handleSelectCountry lib st country).2)) := by
  constructor
  · intro h
    unfold setCountry
    rw [h]
  · intro country h
    unfold setCountry
    rw [h]

/-- Witness for C9: the code `"ZZ"` is absent from the sample list and is a
no-op, while `"TR"` is found and equals the tap on Turkey. -/
theorem c9_setCountry_witness :
    ((sampleDirectory.find? fun c => c.iso2 == "ZZ") = none ∧
      setCountry trivLib sampleDirectory st0 "ZZ" = (st0, none)) ∧
    ((sampleDirectory.find? fun c => c.iso2 == "TR") = some trCountry ∧
      setCountry trivLib sampleDirectory st0 "TR" =
        ((handleSelectCountry trivLib st0 trCountry).1,
          some (handleSelectCountry trivLib st0 trCountry).2)) :=
  ⟨⟨by decide, (c9_setCountry trivLib sampleDirectory st0 "ZZ").1 (by decide)⟩,
    ⟨by decide, (c9_setCountry trivLib sampleDirectory st0 "TR").2 trCountry (by decide)⟩⟩

/-- Refutation of C4 as stated: when the country-scoped parse throws, the
code jumps to the outer catch and displays the raw value — the unscoped parse
is never attempted, even though here it would succeed and infer Germany,
which has a matching entry in the filtered list; the claim demands the
selection switch to that entry. -/
theorem c4_counterexample :
    throwingScopedLib.parseWithCountry "+4915123456789" st0.selectedCountry.iso2 =
      ParseResult.thrown ∧
    throwingScopedLib.parseGeneric "+4915123456789" = ParseResult.result (some deNumber) ∧
    deNumber.country = some "DE" ∧
    (sampleDirectory.find? fun c => c.iso2 == "DE") = some deCountry ∧
    "DE" ≠ st0.selectedCountry.iso2 ∧
    syncValue throwingScopedLib sampleDirectory st0 "+4915123456789" =
      { st0 with nationalText := "+4915123456789" } := by
  refine ⟨rfl, rfl, rfl, by decide, by decide, by decide⟩

/-- C4 (amended): external-value reconciliation with the guard unset: an
empty value clears the national text and does nothing else; the value is
first parsed scoped to the selected country, and a throw of that parse
displays the raw value verbatim with no unscoped attempt; when the scoped
parse returns no number or an invalid one, the unscoped parse is attempted —
its number (when it returns one) replaces the scoped result, a throw of it
keeps the invalid scoped number, and its returning no number discards the
scoped result; when the number so resolved carries a country that differs
from the selection and has a matching entry in the filtered list, the
selection switches to that entry; when a country was resolved the display
text comes from the formatter's NATIONAL rendering (falling back to the raw
value); when the resolution yields no number, or a number without an
inferred country, the raw value is displayed verbatim and no error is
raised. -/
theorem c4_value_sync (lib : PhoneLib) (fcl : List Country) (st : WidgetState)
    (hg : st.guard = false) :
    (syncValue lib fcl st "" = { st with nationalText := "" }) ∧
    (∀ value, value ≠ "" →
      lib.parseWithCountry value st.selectedCountry.iso2 = ParseResult.thrown →
      syncValue lib fcl st value = { st with nationalText := value }) ∧
    (∀ value, value ≠ "" →
      lib.parseWithCountry value st.selectedCountry.iso2 = ParseResult.result none →
      lib.parseGeneric value = ParseResult.result none →
      syncValue lib fcl st value = { st with nationalText := value }) ∧
    (∀ value p ctry newCountry, value ≠ "" →
      lib.parseWithCountry value st.selectedCountry.iso2 = ParseResult.result (some p) →
      p.isValid = true → p.country = some ctry → ctry ≠ st.selectedCountry.iso2 →
      (fcl.find? fun c => c.iso2 == ctry) = some newCountry →
      (syncValue lib fcl st value).selectedCountry = newCountry) ∧
    (∀ value q ctry newCountry, value ≠ "" →
      lib.parseWithCountry value st.selectedCountry.iso2 = ParseResult.result none →
      lib.parseGeneric value = ParseResult.result (some q) →
      q.country = some ctry → ctry ≠ st.selectedCountry.iso2 →
      (fcl.find? fun c => c.iso2 == ctry) = some newCountry →
      (syncValue lib fcl st value).selectedCountry = newCountry) ∧
    (∀ value p ctry, value ≠ "" →
      lib.parseWithCountry value st.selectedCountry.iso2 = ParseResult.result (some p) →
      p.isValid = true → p.country = some ctry →
      (syncValue lib fcl st value).nationalText =
        (match lib.asYouTypeGetNumber ctry value with
          | some n => if n.national = "" then value else n.national
          | none => value)) ∧
    (∀ value, value ≠ "" →
      lib.parseWithCountry value st.selectedCountry.iso2 = ParseResult.result none →
      lib.parseGeneric value = ParseResult.thrown →
      syncValue lib fcl st value = { st with nationalText := value }) ∧
    (∀ value p, value ≠ "" →
      lib.parseWithCountry value st.selectedCountry.iso2 = ParseResult.result (some p) →
      p.isValid = false → lib.parseGeneric value = ParseResult.result none →
      syncValue lib fcl st value = { st with nationalText := value }) ∧
    (∀ value p q ctry newCountry, value ≠ "" →
      lib.parseWithCountry value st.selectedCountry.iso2 = ParseResult.result (some p) →
      p.isValid = false → lib.parseGeneric value = ParseResult.result (some q) →
      q.country = some ctry → ctry ≠ st.selectedCountry.iso2 →
      (fcl.find? fun c => c.iso2 == ctry) = some newCountry →
      (syncValue lib fcl st value).selectedCountry = newCountry) ∧
    (∀ value p q ctry, value ≠ "" →
      lib.parseWithCountry value st.selectedCountry.iso2 = ParseResult.result (some p) →
      p.isValid = false → lib.parseGeneric value = ParseResult.result (some q) →
      q.country = some ctry →
      (syncValue lib fcl st value).nationalText =
        (match lib.asYouTypeGetNumber ctry value with
          | some n => if n.national = "" then value else n.national
          | none => value)) ∧
    (∀ value p ctry newCountry, value ≠ "" →
      lib.parseWithCountry value st.selectedCountry.iso2 = ParseResult.result (some p) →
      p.isValid = false → lib.parseGeneric value = ParseResult.thrown →
      p.country = some ctry → ctry ≠ st.selectedCountry.iso2 →
      (fcl.find? fun c => c.iso2 == ctry) = some newCountry →
      (syncValue lib fcl st value).selectedCountry = newCountry) ∧
    (∀ value p ctry, value ≠ "" →
      lib.parseWithCountry value st.selectedCountry.iso2 = ParseResult.result (some p) →
      p.isValid = false → lib.parseGeneric value = ParseResult.thrown →
      p.country = some ctry →
      (syncValue lib fcl st value).nationalText =
        (match lib.asYouTypeGetNumber ctry value with
          | some n => if n.national = "" then value else n.national
          | none => value)) ∧
    (∀ value p, value ≠ "" →
      lib.parseWithCountry value st.selectedCountry.iso2 = ParseResult.result (some p) →
      p.isValid = true → p.country = none →
      syncValue lib fcl st value = { st with nationalText := value }) ∧
    (∀ value p, value ≠ "" →
      lib.parseWithCountry value st.selectedCountry.iso2 = ParseResult.result (some p) →
      p.isValid = false → lib.parseGeneric value = ParseResult.thrown → p.country = none →
      syncValue lib fcl st value = { st with nationalText := value }) ∧
    (∀ value p q, value ≠ "" →
      lib.parseWithCountry value st.selectedCountry.iso2 = ParseResult.result (some p) →
      p.isValid = false → lib.parseGeneric value = ParseResult.result (some q) →
      q.country = none →
      syncValue lib fcl st value = { st with nationalText := value }) ∧
    (∀ value q, value ≠ "" →
      lib.parseWithCountry value st.selectedCountry.iso2 = ParseResult.result none →
      lib.parseGeneric value = ParseResult.result (some q) → q.country = none →
      syncValue lib fcl st value = { st with nationalText := value }) ∧
    (∀ value q ctry, value ≠ "" →
      lib.parseWithCountry value st.selectedCountry.iso2 = ParseResult.result none →
      lib.parseGeneric value = ParseResult.result (some q) → q.country = some ctry →
      (syncValue lib fcl st value).nationalText =
        (match lib.asYouTypeGetNumber ctry value with
          | some n => if n.national = "" then value else n.national
          | none => value)) := by
  refine ⟨?_, ?_, ?_, ?_, ?_, ?_, ?_, ?_, ?_, ?_, ?_, ?_, ?_, ?_, ?_, ?_, ?_⟩
  · simp [syncValue, hg]
  · intro value hv hp
    simp [syncValue, hg, hv, hp]
  · intro value hv hp hq
    simp [syncValue, hg, hv, hp, hq]
  · intro value p ctry newCountry hv hp hvalid hctry hne hfind
    simp [syncValue, hg, hv, hp, hvalid, hctry, hne, hfind]
  · intro value q ctry newCountry hv hp hq hctry hne hfind
    simp [syncValue, hg, hv, hp, hq, hctry, hne, hfind]
  · intro value p ctry hv hp hvalid hctry
    simp only [syncValue, hg, Bool.false_eq_true, if_false]
    rw [if_neg hv, hp]
    simp only [hvalid, if_true, hctry]
  · intro value hv hp hq
    simp [syncValue, hg, hv, hp, hq]
  · intro value p hv hp hvalid hq
    simp [syncValue, hg, hv, hp, hvalid, hq]
  · intro value p q ctry newCountry hv hp hvalid hq hctry hne hfind
    simp [syncValue, hg, hv, hp, hvalid, hq, hctry, hne, hfind]
  · intro value p q ctry hv hp hvalid hq hctry
    simp only [syncValue, hg, Bool.false_eq_true, if_false]
    rw [if_neg hv, hp]
    simp only [hvalid, Bool.false_eq_true, if_false]
    rw [hq]
    simp only [hctry]
  · intro value p ctry newCountry hv hp hvalid hq hctry hne hfind
    simp [syncValue, hg, hv, hp, hvalid, hq, hctry, hne, hfind]
  · intro value p ctry hv hp hvalid hq hctry
    simp only [syncValue, hg, Bool.false_eq_true, if_false]
    rw [if_neg hv, hp]
    simp only [hvalid, Bool.false_eq_true, if_false]
    rw [hq]
    simp only [hctry]
  · intro value p hv hp hvalid hctry
    simp [syncValue, hg, hv, hp, hvalid, hctry]
  · intro value p hv hp hvalid hq hctry
    simp [syncValue, hg, hv, hp, hvalid, hq, hctry]
  · intro value p q hv hp hvalid hq hctry
    simp [syncValue, hg, hv, hp, hvalid, hq, hctry]
  · intro value q hv hp hq hctry
    simp [syncValue, hg, hv, hp, hq, hctry]
  · intro value q ctry hv hp hq hctry
    simp only [syncValue, hg, Bool.false_eq_true, if_false]
    rw [if_neg hv, hp]
    rw [hq]
    simp only [hctry]

/-- Witness for C4: an empty value clears the national text of a concrete
unguarded state. -/
theorem c4_value_sync_witness :
    st0.guard = false ∧ syncValue trivLib [] st0 "" = { st0 with nationalText := "" } :=
  ⟨rfl, (c4_value_sync trivLib [] st0 rfl).1⟩

/-- C10: with a non-empty directory the mount-time selection is always a
defined country record: the filtered-list entry matching `defaultCountry`
when one exists, otherwise the first filtered-list entry, otherwise — when
the filtered list is empty — the first entry of the unfiltered directory. -/
theorem c10_initial_selection (directory : List Country)
    (allowed excluded preferred : Option (List String)) (defaultCountry : String)
    (h : directory ≠ []) :
    ∃ c, initialSelectedCountry directory allowed excluded preferred defaultCountry = some c ∧
      (((finalCountryList directory allowed excluded preferred).find?
          fun x => x.iso2 == defaultCountry) = some c ∨
        (((finalCountryList directory allowed excluded preferred).find?
            fun x => x.iso2 == defaultCountry) = none ∧
          (finalCountryList directory allowed excluded preferred).head? = some c) ∨
        (((finalCountryList directory allowed excluded preferred).find?
            fun x => x.iso2 == defaultCountry) = none ∧
          finalCountryList directory allowed excluded preferred = [] ∧
          directory.head? = some c)) := by
  cases hfind : (finalCountryList directory allowed excluded preferred).find?
      fun x => x.iso2 == defaultCountry with
  | some c =>
    refine ⟨c, ?_, Or.inl rfl⟩
    simp [initialSelectedCountry, hfind, Option.orElse]
  | none =>
    cases hhead : (finalCountryList directory allowed excluded preferred).head? with
    | some c =>
      refine ⟨c, ?_, Or.inr (Or.inl ⟨rfl, rfl⟩)⟩
      simp [initialSelectedCountry, hfind, hhead, Option.orElse]
    | none =>
      have hempty : finalCountryList directory allowed excluded preferred = [] := by
        cases hfcl : finalCountryList directory allowed excluded preferred with
        | nil => rfl
        | cons a l =>
          rw [hfcl] at hhead
          simp at hhead
      obtain ⟨a, ha⟩ : ∃ a, directory.head? = some a := by
        cases hdir : directory with
        | nil => exact absurd hdir h
        | cons x xs => exact ⟨x, rfl⟩
      refine ⟨a, ?_, Or.inr (Or.inr ⟨rfl, hempty, ha⟩)⟩
      simp [initialSelectedCountry, hfind, hhead, ha, Option.orElse]

/-- Witness for C10: the sample directory is non-empty, so the mount-time
selection is defined. -/
theorem c10_initial_selection_witness :
    sampleDirectory ≠ [] ∧
    ∃ c, initialSelectedCountry sampleDirectory none none none "TR" = some c ∧
      (((finalCountryList sampleDirectory none none none).find?
          fun x => x.iso2 == "TR") = some c ∨
        (((finalCountryList sampleDirectory none none none).find?
            fun x => x.iso2 == "TR") = none ∧
          (finalCountryList sampleDirectory none none none).head? = some c) ∨
        (((finalCountryList sampleDirectory none none none).find?
            fun x => x.iso2 == "TR") = none ∧
          finalCountryList sampleDirectory none none none = [] ∧
          sampleDirectory.head? = some c)) :=
  ⟨by decide, c10_initial_selection sampleDirectory none none none "TR" (by decide)⟩

/-- A member of the list has a non-negative JavaScript index. -/
theorem jsIndexOf_nonneg {l : List String} {a : String} (h : a ∈ l) : 0 ≤ jsIndexOf l a := by
  induction l with
  | nil => cases h
  | cons x xs ih =>
    by_cases hx : x = a
    · simp [jsIndexOf, hx]
    · rcases List.mem_cons.mp h with h1 | h2
      · exact absurd h1.symm hx
      · have h0 := ih h2
        simp only [jsIndexOf, if_neg hx]
        rw [if_neg (by omega : jsIndexOf xs a ≠ -1)]
        omega

/-- Two members of a list with the same JavaScript index are equal. -/
theorem jsIndexOf_inj {l : List String} {a b : String} (ha : a ∈ l) (hb : b ∈ l)
    (h : jsIndexOf l a = jsIndexOf l b) : a = b := by
  induction l with
  | nil => cases ha
  | cons x xs ih =>
    by_cases hxa : x = a <;> by_cases hxb : x = b
    · rw [← hxa, hxb]
    · have hbxs : b ∈ xs := by
        rcases List.mem_cons.mp hb with h1 | h2
        · exact absurd h1.symm hxb
        · exact h2
      have h0 := jsIndexOf_nonneg hbxs
      simp only [jsIndexOf, if_pos hxa, if_neg hxb] at h
      rw [if_neg (by omega : jsIndexOf xs b ≠ -1)] at h
      exact absurd h (by omega)
    · have haxs : a ∈ xs := by
        rcases List.mem_cons.mp ha with h1 | h2
        · exact absurd h1.symm hxa
        · exact h2
      have h0 := jsIndexOf_nonneg haxs
      simp only [jsIndexOf, if_neg hxa, if_pos hxb] at h
      rw [if_neg (by omega : jsIndexOf xs a ≠ -1)] at h
      exact absurd h (by omega)
    · have haxs : a ∈ xs := by
        rcases List.mem_cons.mp ha with h1 | h2
        · exact absurd h1.symm hxa
        · exact h2
      have hbxs : b ∈ xs := by
        rcases List.mem_cons.mp hb with h1 | h2
        · exact absurd h1.symm hxb
        · exact h2
      have h0a := jsIndexOf_nonneg haxs
      have h0b := jsIndexOf_nonneg hbxs
      simp only [jsIndexOf, if_neg hxa, if_neg hxb] at h
      rw [if_neg (by omega : jsIndexOf xs a ≠ -1),
        if_neg (by omega : jsIndexOf xs b ≠ -1)] at h
      exact ih haxs hbxs (by omega)

/-- In a duplicate-free list the JavaScript index of the element at position
`i` is `i`. -/
theorem jsIndexOf_getElem {l : List String} (hnd : l.Nodup) (i : Nat) (hi : i < l.length) :
    jsIndexOf l l[i] = i := by
  induction l generalizing i with
  | nil => simp at hi
  | cons x xs ih =>
    cases i with
    | zero => simp [jsIndexOf]
    | succ j =>
      have hj : j < xs.length := by simpa using hi
      have hx : x ≠ xs[j] := by
        intro hcontra
        have hmem : xs[j] ∈ xs := List.getElem_mem hj
        rw [← hcontra] at hmem
        exact (List.nodup_cons.mp hnd).1 hmem
      have hrec := ih (List.nodup_cons.mp hnd).2 j hj
      simp only [List.getElem_cons_succ, jsIndexOf, if_neg hx]
      rw [hrec, if_neg (by omega : (j : Int) ≠ -1)]
      omega

/-- A duplicate-free list is strictly ordered by its own JavaScript indices. -/
theorem pairwise_jsIndexOf {p : List String} (hp : p.Nodup) :
    List.Pairwise (fun a b => jsIndexOf p a < jsIndexOf p b) p := by
  rw [List.pairwise_iff_getElem]
  intro i j hi hj hij
  rw [jsIndexOf_getElem hp i hi, jsIndexOf_getElem hp j hj]
  exact_mod_cast hij

/-- The stable sort of the preferred members by preference-list index equals
the spec's construction — walking the preference list and picking each code's
directory entry — provided the countries have pairwise distinct ISO2 codes
and the preference list is duplicate-free. -/
theorem mergeSort_pref_eq_spec (p : List String) (l : List Country)
    (hiso : (l.map Country.iso2).Nodup) (hp : p.Nodup) :
    (l.filter fun c => p.contains c.iso2).mergeSort (prefLe p) =
      p.filterMap fun code => l.find? fun c => c.iso2 == code := by
  have hltrans : ∀ a b c : Country,
      prefLe p a b = true → prefLe p b c = true → prefLe p a c = true := by
    intro a b c hab hbc
    simp only [prefLe, decide_eq_true_eq] at *
    omega
  have htotal : ∀ a b : Country, (prefLe p a b || prefLe p b a) = true := by
    intro a b
    simp only [prefLe, Bool.or_eq_true, decide_eq_true_eq]
    omega
  have hperm := List.mergeSort_perm (l.filter fun c => p.contains c.iso2) (prefLe p)
  have hsorted_le := List.sorted_mergeSort hltrans htotal
    (l.filter fun c => p.contains c.iso2)
  have hlnd : l.Nodup := List.Nodup.of_map _ hiso
  have hfsub : (l.filter fun c => p.contains c.iso2).Sublist l := List.filter_sublist l
  have hfnd : (l.filter fun c => p.contains c.iso2).Nodup := List.Nodup.sublist hfsub hlnd
  have hfiso : ((l.filter fun c => p.contains c.iso2).map Country.iso2).Nodup :=
    List.Nodup.sublist (hfsub.map _) hiso
  have hmem_p : ∀ c ∈ l.filter fun c => p.contains c.iso2, c.iso2 ∈ p := by
    intro c hc
    have := (List.mem_filter.mp hc).2
    simpa using this
  have hkinj : ∀ x ∈ l.filter fun c => p.contains c.iso2,
      ∀ y ∈ l.filter fun c => p.contains c.iso2,
      jsIndexOf p x.iso2 = jsIndexOf p y.iso2 → x = y := by
    intro x hx y hy hxy
    have hiso_eq : x.iso2 = y.iso2 := jsIndexOf_inj (hmem_p x hx) (hmem_p y hy) hxy
    exact List.inj_on_of_nodup_map hiso
      (List.mem_filter.mp hx).1 (List.mem_filter.mp hy).1 hiso_eq
  have hmapknd :
      ((l.filter fun c => p.contains c.iso2).map fun c => jsIndexOf p c.iso2).Nodup :=
    List.Nodup.map_on hkinj hfnd
  have hmaps :
      (((l.filter fun c => p.contains c.iso2).mergeSort (prefLe p)).map
        fun c => jsIndexOf p c.iso2).Nodup :=
    ((hperm.map fun c => jsIndexOf p c.iso2).nodup_iff).mpr hmapknd
  have hpairne : List.Pairwise (fun a b => jsIndexOf p a.iso2 ≠ jsIndexOf p b.iso2)
      ((l.filter fun c => p.contains c.iso2).mergeSort (prefLe p)) :=
    List.pairwise_map.mp hmaps
  have hsorted_lt : List.Pairwise (fun a b => jsIndexOf p a.iso2 < jsIndexOf p b.iso2)
      ((l.filter fun c => p.contains c.iso2).mergeSort (prefLe p)) := by
    refine (hsorted_le.and hpairne).imp ?_
    intro a b hab
    have h1 := hab.1
    simp only [prefLe, decide_eq_true_eq] at h1
    exact lt_of_le_of_ne h1 hab.2
  have hrhs_sorted : List.Pairwise (fun a b => jsIndexOf p a.iso2 < jsIndexOf p b.iso2)
      (p.filterMap fun code => l.find? fun c => c.iso2 == code) := by
    rw [List.pairwise_filterMap]
    refine (pairwise_jsIndexOf hp).imp ?_
    intro a b hab x hx y hy
    have hxa : x.iso2 = a := by simpa using List.find?_some (Option.mem_def.mp hx)
    have hyb : y.iso2 = b := by simpa using List.find?_some (Option.mem_def.mp hy)
    rw [hxa, hyb]
    exact hab
  have hrhnd : (p.filterMap fun code => l.find? fun c => c.iso2 == code).Nodup := by
    refine hrhs_sorted.imp ?_
    intro a b hab heq
    rw [heq] at hab
    exact absurd hab (lt_irrefl _)
  have hmem : ∀ x, x ∈ (p.filterMap fun code => l.find? fun c => c.iso2 == code) ↔
      x ∈ l.filter fun c => p.contains c.iso2 := by
    intro x
    constructor
    · intro hx
      obtain ⟨code, hcode, hfind⟩ := List.mem_filterMap.mp hx
      have hxl : x ∈ l := List.mem_of_find?_eq_some hfind
      have hxiso : x.iso2 = code := by simpa using List.find?_some hfind
      rw [List.mem_filter]
      refine ⟨hxl, ?_⟩
      rw [hxiso]
      simpa using hcode
    · intro hx
      obtain ⟨hxl, hcont⟩ := List.mem_filter.mp hx
      have hmemp : x.iso2 ∈ p := by simpa using hcont
      have hsome : (l.find? fun c => c.iso2 == x.iso2).isSome = true :=
        List.find?_isSome.mpr ⟨x, hxl, by simp⟩
      obtain ⟨y, hy⟩ := Option.isSome_iff_exists.mp hsome
      have hyl : y ∈ l := List.mem_of_find?_eq_some hy
      have hyiso : y.iso2 = x.iso2 := by simpa using List.find?_some hy
      have hxy : y = x := List.inj_on_of_nodup_map hiso hyl hxl hyiso
      exact List.mem_filterMap.mpr ⟨x.iso2, hmemp, by rw [hy, hxy]⟩
  have hperm2 : ((l.filter fun c => p.contains c.iso2).mergeSort (prefLe p)).Perm
      (p.filterMap fun code => l.find? fun c => c.iso2 == code) :=
    hperm.trans ((List.perm_ext_iff_of_nodup hfnd hrhnd).mpr fun a => (hmem a).symm)
  haveI : IsAntisymm Country (fun a b => jsIndexOf p a.iso2 < jsIndexOf p b.iso2) :=
    ⟨fun a b h1 h2 => absurd (h1.trans h2) (lt_irrefl _)⟩
  exact List.eq_of_perm_of_sorted hperm2 hsorted_lt hrhs_sorted

/-- The allowed-countries stage keeps the ISO2 codes pairwise distinct. -/
theorem applyAllowed_iso2_nodup (a : Option (List String)) {l : List Country}
    (h : (l.map Country.iso2).Nodup) : ((applyAllowed a l).map Country.iso2).Nodup := by
  cases a with
  | none => exact h
  | some al =>
    by_cases hal : al.isEmpty = true
    · simpa [applyAllowed, hal] using h
    · simp only [applyAllowed, hal, if_false]
      exact List.Nodup.sublist ((List.filter_sublist l).map _) h

/-- The excluded-countries stage keeps the ISO2 codes pairwise distinct. -/
theorem applyExcluded_iso2_nodup (e : Option (List String)) {l : List Country}
    (h : (l.map Country.iso2).Nodup) : ((applyExcluded e l).map Country.iso2).Nodup := by
  cases e with
  | none => exact h
  | some el =>
    by_cases hel : el.isEmpty = true
    · simpa [applyExcluded, hel] using h
    · simp only [applyExcluded, hel, if_false]
      exact List.Nodup.sublist ((List.filter_sublist l).map _) h

/-- Refutation of C6 as stated: with `allowedCountries` set to the empty
list, the claim's pipeline filters the directory down to the empty list,
while the code skips the allowed stage entirely (the guard is
`allowedCountries && allowedCountries.length > 0`) and returns the whole
directory. -/
theorem c6_counterexample :
    finalCountryList sampleDirectory (some []) none none = sampleDirectory ∧
    sampleDirectory.filter (fun c => List.contains ([] : List String) c.iso2) = [] ∧
    sampleDirectory ≠ [] := by
  refine ⟨rfl, rfl, by decide⟩

/-- C6 (amended): for every combination of the three optional inputs,
`FilteredCountryList` equals the static directory filtered to
`allowedCountries` (if set and non-empty), then with `excludedCountries`
removed (if set and non-empty), then with the members of
`preferredCountries` (if set and non-empty) moved to the front ordered by
their position in the preference list, followed by all remaining entries in
directory order; the output has no duplicate ISO2 codes, and with no inputs
set it equals the directory in default order.  Hypotheses: the directory's
ISO2 codes are pairwise distinct (the spec's uniqueness invariant) and the
preference list is duplicate-free. -/
theorem c6_filtered_list (directory : List Country)
    (allowed excluded preferred : Option (List String))
    (hiso : (directory.map Country.iso2).Nodup)
    (hp : ∀ pl, preferred = some pl → pl.Nodup) :
    finalCountryList directory allowed excluded preferred =
      specFinalCountryList directory allowed excluded preferred ∧
    ((finalCountryList directory allowed excluded preferred).map Country.iso2).Nodup ∧
    finalCountryList directory none none none = directory := by
  have h2 : ((applyExcluded excluded (applyAllowed allowed directory)).map
      Country.iso2).Nodup :=
    applyExcluded_iso2_nodup excluded (applyAllowed_iso2_nodup allowed hiso)
  refine ⟨?_, ?_, rfl⟩
  · cases preferred with
    | none => rfl
    | some pl =>
      by_cases hpl : pl.isEmpty = true
      · simp [finalCountryList, specFinalCountryList, applyPreferred, specApplyPreferred, hpl]
      · have hspec := mergeSort_pref_eq_spec pl
          (applyExcluded excluded (applyAllowed allowed directory)) h2 (hp pl rfl)
        simp only [finalCountryList, specFinalCountryList, applyPreferred,
          specApplyPreferred, specPreferredFront, hpl, if_false]
        rw [hspec]
  · cases preferred with
    | none => exact h2
    | some pl =>
      by_cases hpl : pl.isEmpty = true
      · simpa [finalCountryList, applyPreferred, hpl] using h2
      · simp only [finalCountryList, applyPreferred, hpl, if_false]
        have happend :
            (((applyExcluded excluded (applyAllowed allowed directory)).filter
                fun c => pl.contains c.iso2).mergeSort (prefLe pl) ++
              (applyExcluded excluded (applyAllowed allowed directory)).filter
                fun c => !pl.contains c.iso2).Perm
              (applyExcluded excluded (applyAllowed allowed directory)) :=
          ((List.mergeSort_perm _ _).append_right _).trans (List.filter_append_perm _ _)
        exact ((happend.map Country.iso2).nodup_iff).mpr h2

/-- Witness for C6: with the sample directory and `preferredCountries =
["DE", "US"]` the code's list equals the spec's pipeline, which places
Germany first and the United States second, with the remaining entries in
directory order. -/
theorem c6_filtered_list_witness :
    ((sampleDirectory.map Country.iso2).Nodup ∧
      (∀ pl, (some ["DE", "US"] : Option (List String)) = some pl → pl.Nodup)) ∧
    (finalCountryList sampleDirectory none none (some ["DE", "US"]) =
        specFinalCountryList sampleDirectory none none (some ["DE", "US"]) ∧
      ((finalCountryList sampleDirectory none none (some ["DE", "US"])).map
        Country.iso2).Nodup ∧
      finalCountryList sampleDirectory none none none = sampleDirectory) ∧
    specFinalCountryList sampleDirectory none none (some ["DE", "US"]) =
      [deCountry, usCountry, caCountry, trCountry] := by
  refine ⟨⟨by decide, fun pl h => by cases h; decide⟩,
    c6_filtered_list sampleDirectory none none (some ["DE", "US"]) (by decide)
      (fun pl h => by cases h; decide), ?_⟩
  decide

end PhoneInput
